import Mathlib

/-
Shallow embedding of the open-addressing hash-map engine of the repository
`discrete_map.h` (files `include/discrete_map.h`, `include/partial_map.h`,
`include/BitwiseMapPolicy.h`, and the unnamed drafts).

Modelling decisions, applied uniformly:
* Keys and values are specialised to `Nat` (the C++ classes are templates; the
  drafts are exercised with integral keys, and `std::hash<size_t>` in libstdc++
  is the identity).  The hash function is passed explicitly to each operation,
  mirroring the pluggable `std::hash` member.
* `size_t` arithmetic stays in `Nat` (the quantities involved never approach
  2^64, so no wraparound is modelled).
* The float literal `0.8f` of `BitwiseMapPolicy::threshold` is represented by
  its exact value 13421773/16777216 as a rational; float conversions and the
  float division of `discrete_map::load_factor` are exact at every magnitude
  exercised below (integers below 2^24 over power-of-two capacities), so
  comparisons with the threshold agree with the C++ ones on those inputs.
* `partial_map::_load_factor` performs the `size_t` integer division
  `_keys.size() / _index_probe.size()` before any float conversion; the model
  keeps that integer division.
* Out-of-bounds vector accesses (`_keys[d]` with a stale dense index, which is
  undefined behaviour in C++) are totalised: a key comparison against an
  out-of-bounds position is modelled as a mismatch (`List.getElem?` returning
  `none`), and reads use `getD` with a default.  Every theorem below that draws
  a conclusion from such a state says so in its doc comment.
-/

/-! ### BitwiseMapPolicy (include/BitwiseMapPolicy.h, src/unnamed/part_000) -/

/-- `BitwiseMapPolicy::get_index`: `raw_hash_val & (capacity - 1)`. -/
def get_index (raw_hash_val capacity : Nat) : Nat :=
  raw_hash_val &&& (capacity - 1)

/-- `BitwiseMapPolicy::next_capacity`: `capacity << 1`. -/
def next_capacity (capacity : Nat) : Nat :=
  capacity <<< 1

/-- `BitwiseMapPolicy::min_capacity`: `8u`. -/
def min_capacity : Nat := 8

/-- Bit width of C++ `unsigned int` (4 bytes on the usual LP64/LLP64 targets). -/
def uint_bits : Nat := 32

/-- Bit width of C++ `size_t` (8 bytes on LP64 targets), the slot-index type. -/
def size_t_bits : Nat := 64

/-- The loop of `BitwiseMapPolicy::max_capacity`: starting from `value`,
shift left while the top bit of the 32-bit `unsigned int` is clear.  The C++
`while` loop terminates after at most `uint_bits` shifts; the fuel argument is
set accordingly by `max_capacity`. -/
def max_capacity_go : Nat → Nat → Nat
  | 0, value => value
  | fuel + 1, value =>
    if value &&& (1 <<< (uint_bits - 1)) = 0 then max_capacity_go fuel (value <<< 1)
    else value

/-- `BitwiseMapPolicy::max_capacity`: doubles `min_capacity()` (held in an
`unsigned int`) until the top bit of the 32-bit word is set. -/
def max_capacity : Nat := max_capacity_go uint_bits min_capacity

/-- Numerator of the exact value of the float literal `0.8f` returned by
`BitwiseMapPolicy::threshold` (0.8 rounded to the nearest binary32 is
13421773/2^24). -/
def threshold_num : Nat := 13421773

/-- Denominator (2^24) of the exact value of the float `0.8f`. -/
def threshold_den : Nat := 16777216

/-- Exact value of the float literal `0.8f` returned by
`BitwiseMapPolicy::threshold` (0.8 rounded to the nearest binary32). -/
def threshold_q : ℚ := 13421773 / 16777216

/-! ### Shared state of the map drafts

Both `partial_map` and `discrete_map` hold the same three vectors:
`_index_probe : vector<optional<size_t>>`, `_keys : vector<K>`,
`_values : vector<T>`. -/

/-- The data members `_index_probe`, `_keys`, `_values` shared by the
`partial_map` and `discrete_map` classes. -/
structure MapState where
  index_probe : List (Option Nat)
  keys : List Nat
  values : List Nat
deriving DecidableEq, Repr

/-- A fresh map as built by the default constructors:
`_index_probe(_policy->min_capacity(), std::nullopt)` with empty dense
storage. -/
def MapState.empty : MapState :=
  { index_probe := List.replicate min_capacity none, keys := [], values := [] }

/-- The order in which every driver loop of the repository visits the probe
slots: `for (i = start; i < capacity; i++)` followed by
`for (i = 0; i < start; i++)`. -/
def probe_order (start capacity : Nat) : List Nat :=
  List.range' start (capacity - start) ++ List.range start

/-! ### partial_map (include/partial_map.h) -/

namespace PartialMap

/-- `partial_map::_load_factor`: `_keys.size() / _index_probe.size()` — an
integer (`size_t`) division whose result is then converted to `float`
(exactly, being a small integer). -/
def load_factor (size capacity : Nat) : ℚ :=
  ((size / capacity : Nat) : ℚ)

/-- The growth test of `partial_map::insert`:
`_load_factor() > _policy->threshold()`, i.e.
`(float)(size / capacity) > 0.8f`.  The integer quotient and
`0.8f = 13421773/16777216` are both exact floats, so the comparison equals the
exact rational comparison, written here over `Nat`:
`q > 13421773/16777216  ↔  16777216 * q > 13421773`. -/
def grow_check (size capacity : Nat) : Bool :=
  decide (threshold_num < threshold_den * (size / capacity))

/-- The inner write of `partial_map::_resize`: probe the new table from the
entry's new bucket and store the dense index in the first empty slot
(`move_index_if_slot_avail`).  If the whole cycle is occupied the C++ code
falls through and the entry is dropped (the `TODO` at the end of the loops). -/
def resize_probe_go (d : Nat) : List Nat → List (Option Nat) → List (Option Nat)
  | [], bigger => bigger
  | i :: rest, bigger =>
    match bigger.getD i none with
    | none => bigger.set i (some d)
    | some _ => resize_probe_go d rest bigger

/-- `partial_map::_resize`: allocate a table of `next_capacity` slots, walk the
old table in slot order and re-insert every stored dense index at the first
empty slot on the probe sequence of its key's new bucket. -/
def resize (hash : Nat → Nat) (m : MapState) : MapState :=
  let new_size := next_capacity m.index_probe.length
  let bigger := m.index_probe.foldl
    (fun acc slot =>
      match slot with
      | some d =>
          resize_probe_go d
            (probe_order (get_index (hash (m.keys.getD d 0)) new_size) new_size) acc
      | none => acc)
    (List.replicate new_size (none : Option Nat))
  { m with index_probe := bigger }

/-- The body of `partial_map::insert`'s driver loops (`ins_fn` applied along
the probe order).  An occupied slot whose key equals the new key overwrites the
stored value and stops; an empty slot stores the next dense index, appends to
both dense vectors, then resizes if the (integer-division) load factor exceeds
the threshold. -/
def insert_go (hash : Nat → Nat) (k v : Nat) :
    List Nat → MapState → Bool × MapState
  | [], m => (false, m)
  | i :: rest, m =>
    match m.index_probe.getD i none with
    | some d =>
        if m.keys[d]? = some k then
          (true, { m with values := m.values.set d v })
        else
          insert_go hash k v rest m
    | none =>
        let m' : MapState :=
          { index_probe := m.index_probe.set i (some m.keys.length),
            keys := m.keys ++ [k],
            values := m.values ++ [v] }
        if grow_check m'.keys.length m'.index_probe.length then
          (true, resize hash m')
        else
          (true, m')

/-- `partial_map::insert`. -/
def insert (hash : Nat → Nat) (k v : Nat) (m : MapState) : Bool × MapState :=
  insert_go hash k v
    (probe_order (get_index (hash k) m.index_probe.length) m.index_probe.length) m

/-- The body of `partial_map::find`'s driver loops (`find_logic` along the
probe order): tri-valued — stop with the value on a key match, stop with
"absent" on the first empty slot, keep probing past an occupied mismatch. -/
def find_go (m : MapState) (k : Nat) : List Nat → Option Nat
  | [] => none
  | i :: rest =>
    match m.index_probe.getD i none with
    | some d =>
        if m.keys[d]? = some k then m.values[d]?
        else find_go m k rest
    | none => none

/-- `partial_map::find`. -/
def find (hash : Nat → Nat) (k : Nat) (m : MapState) : Option Nat :=
  find_go m k
    (probe_order (get_index (hash k) m.index_probe.length) m.index_probe.length)

/-- The body of `partial_map::erase`'s driver loops
(`erase_pair_if_index_match` along the probe order): on a key match, erase the
dense position from both vectors and clear the slot; stop with `false` at the
first empty slot; keep probing past an occupied mismatch. -/
def erase_go (k : Nat) : List Nat → MapState → Bool × MapState
  | [], m => (false, m)
  | i :: rest, m =>
    match m.index_probe.getD i none with
    | some d =>
        if m.keys[d]? = some k then
          (true,
            { index_probe := m.index_probe.set i none,
              keys := m.keys.eraseIdx d,
              values := m.values.eraseIdx d })
        else
          erase_go k rest m
    | none => (false, m)

/-- `partial_map::erase`. -/
def erase (hash : Nat → Nat) (k : Nat) (m : MapState) : Bool × MapState :=
  erase_go k
    (probe_order (get_index (hash k) m.index_probe.length) m.index_probe.length) m

end PartialMap

/-! ### discrete_map (include/discrete_map.h) -/

namespace DiscreteMap

/-- `discrete_map::load_factor`:
`static_cast<float>(_keys.size()) / static_cast<float>(_index_probe.size())`.
Modelled as the exact rational quotient; the float conversions and division
are exact at every magnitude exercised below.  (For `capacity = 0` the C++
float division would yield infinity/NaN; the constructor makes the capacity at
least `min_capacity`, so that case is never reached.) -/
def load_factor (size capacity : Nat) : ℚ :=
  (size : ℚ) / (capacity : ℚ)

/-- The growth test of `discrete_map::insert`:
`load_factor() >= _policy->threshold()`, i.e.
`(float)size / (float)capacity >= 0.8f`.  Exact at every magnitude exercised
here, so written as the exact rational comparison over `Nat`:
`s/c ≥ 13421773/16777216  ↔  13421773 * c ≤ 16777216 * s`. -/
def grow_check (size capacity : Nat) : Bool :=
  decide (threshold_num * capacity ≤ threshold_den * size)

/-- `discrete_map::rehash`: a no-op unless `n` exceeds the current capacity;
otherwise allocates `the_bigger_probe` of `n` empty slots, walks the old table
in slot order (`_circular_traversal(0, move_index_if_slot_avail)`, whose
callback always returns false), and writes each stored dense index DIRECTLY at
its key's bucket under the new capacity — without probing for an empty slot,
so two entries whose keys collide under `n` overwrite one another.  (The C++
body writes `std::move(old_kv_index)`, an undeclared name; the evident
referent, and the one every sibling draft uses, is `current_kv_index`, the
slot just read.) -/
def rehash (hash : Nat → Nat) (n : Nat) (m : MapState) : MapState :=
  if n ≤ m.index_probe.length then m
  else
    { m with
      index_probe := m.index_probe.foldl
        (fun acc slot =>
          match slot with
          | some d => acc.set (get_index (hash (m.keys.getD d 0)) n) (some d)
          | none => acc)
        (List.replicate n (none : Option Nat)) }

/-- `discrete_map::_grow_next`: `rehash(_policy->next_capacity(capacity))`. -/
def grow_next (hash : Nat → Nat) (m : MapState) : MapState :=
  rehash hash (next_capacity m.index_probe.length) m

/-- The body of `discrete_map::insert`'s probe (`ins_fn` along the probe
order).  On an occupied slot with an equal key the stored value is overwritten
(`_values[idx] = value; return true`).  On the first empty slot the code first
checks `load_factor() >= threshold` and calls `_grow_next()` if so, and then
performs `current_kv_index = _keys.size()` — but `current_kv_index` is a
reference into the OLD `_index_probe`, which `_grow_next` has just replaced,
so after a growth the store of the dense index hits the freed buffer and the
new table never receives it; only the dense vectors get the new entry.  The
model renders that lost store by leaving the grown table unchanged. -/
def insert_go (hash : Nat → Nat) (k v : Nat) :
    List Nat → MapState → Bool × MapState
  | [], m => (false, m)
  | i :: rest, m =>
    match m.index_probe.getD i none with
    | some d =>
        if m.keys[d]? = some k then
          (true, { m with values := m.values.set d v })
        else
          insert_go hash k v rest m
    | none =>
        if grow_check m.keys.length m.index_probe.length then
          let mg := grow_next hash m
          (true, { mg with keys := mg.keys ++ [k], values := mg.values ++ [v] })
        else
          (true,
            { index_probe := m.index_probe.set i (some m.keys.length),
              keys := m.keys ++ [k],
              values := m.values ++ [v] })

/-- `discrete_map::insert`. -/
def insert (hash : Nat → Nat) (k v : Nat) (m : MapState) : Bool × MapState :=
  insert_go hash k v
    (probe_order (get_index (hash k) m.index_probe.length) m.index_probe.length) m

/-- The body of `discrete_map::find`'s probe (`find_logic` along the probe
order): it stops only on a key match, recording `begin() + i` — the iterator
offset by the PROBE index `i`, not by the stored dense index.  An empty slot
just sets the result to `end()` and lets the traversal continue, so the scan
walks the entire cycle before reporting "absent". -/
def find_go (m : MapState) (k : Nat) : List Nat → Option Nat
  | [] => none
  | i :: rest =>
    match m.index_probe.getD i none with
    | some d =>
        if m.keys[d]? = some k then some i
        else find_go m k rest
    | none => find_go m k rest

/-- `discrete_map::find`: returns the offset `i` with which the returned
iterator is built (`begin() + i`), or `none` for `end()`. -/
def find (hash : Nat → Nat) (k : Nat) (m : MapState) : Option Nat :=
  find_go m k
    (probe_order (get_index (hash k) m.index_probe.length) m.index_probe.length)

/-- Result type of `discrete_map::at`:
`std::expected<T&, std::error_code>`, where the error is
`std::errc::result_out_of_range`. -/
inductive AtResult where
  | ok (v : Nat)
  | result_out_of_range
deriving DecidableEq, Repr

/-- `discrete_map::at`: `find(k)`, then `it->second` when the iterator is not
`end()` — the value at the iterator's offset, i.e. at dense position `i` where
`i` is the probe index recorded by `find` — and otherwise the
`result_out_of_range` error code.  (Dereferencing `begin() + i` with `i` at or
past `_values.size()` would be undefined behaviour; `getD` totalises it.) -/
def at' (hash : Nat → Nat) (k : Nat) (m : MapState) : AtResult :=
  match find hash k m with
  | some i => AtResult.ok (m.values.getD i 0)
  | none => AtResult.result_out_of_range

end DiscreteMap

/-! ### Concrete fixtures used by the claim theorems

`std::hash<size_t>` in libstdc++ is the identity function, so the identity is
the hash every integral-key instantiation of these classes actually runs
with. -/

/-- The identity hash, `std::hash<size_t>`. -/
def idhash : Nat → Nat := fun x => x

/-- Two colliding keys: `insert(0,10); insert(8,20)` in a `partial_map`
(capacity 8; both keys hash to bucket 0, so key 8 lands in slot 1). -/
def m_08 : MapState :=
  (PartialMap.insert idhash 8 20 (PartialMap.insert idhash 0 10 MapState.empty).2).2

/-- Two non-colliding keys: `insert(0,10); insert(1,20)` in a `partial_map`
(buckets 0 and 1, dense positions 0 and 1). -/
def m_01 : MapState :=
  (PartialMap.insert idhash 1 20 (PartialMap.insert idhash 0 10 MapState.empty).2).2

/-- A single entry: `insert(0,1)` in a `partial_map`. -/
def c3_m : MapState := (PartialMap.insert idhash 0 1 MapState.empty).2

/-- Seven inserts into a `discrete_map`, keys hashing to the seven distinct
buckets 0..6 of the capacity-8 table. -/
def c4_m7 : MapState :=
  [(0, 100), (1, 101), (2, 102), (3, 103), (4, 104), (5, 105), (6, 106)].foldl
    (fun m kv => (DiscreteMap.insert idhash kv.1 kv.2 m).2) MapState.empty

/-- Two keys that collide under capacity 16 but not under capacity 8:
`insert(0,10); insert(16,20)` in a `discrete_map` (buckets 0 and 0 mod 8 —
slot 0 and slot 1; under capacity 16 both keys bucket to 0). -/
def c5_m : MapState :=
  (DiscreteMap.insert idhash 16 20 (DiscreteMap.insert idhash 0 10 MapState.empty).2).2

/-- A table where key 8 (bucket 0) sits at slot 1 behind the empty slot 0 —
the stranded shape `erase` leaves behind (compare the C1 run, where erasing
key 0 empties slot 0 while key 8's entry stays referenced further along the
chain). -/
def c6_m : MapState :=
  { index_probe := [none, some 0, none, none, none, none, none, none],
    keys := [8], values := [20] }

/-- `insert(1,100); insert(0,200)` in a `discrete_map`: key 1 occupies probe
slot 1 but dense position 0, key 0 occupies probe slot 0 but dense
position 1. -/
def c8_m : MapState :=
  (DiscreteMap.insert idhash 0 200 (DiscreteMap.insert idhash 1 100 MapState.empty).2).2

/-! ### Helper lemmas -/

/-- `h & (capacity - 1)` is below the capacity. -/
theorem get_index_lt (h c : Nat) (hc : 0 < c) : get_index h c < c :=
  lt_of_le_of_lt Nat.and_le_right (Nat.sub_lt hc Nat.one_pos)

/-- The two driver loops together visit every slot exactly once: the probe
order is a permutation of `[0, capacity)`. -/
theorem probe_order_perm_range (start cap : Nat) (h : start ≤ cap) :
    (probe_order start cap).Perm (List.range cap) := by
  have happ := List.range'_append 0 start (cap - start) 1
  simp only [Nat.zero_add, Nat.one_mul] at happ
  rw [Nat.sub_add_cancel h] at happ
  unfold probe_order
  rw [List.range_eq_range' cap, ← happ, List.range_eq_range' start]
  exact List.perm_append_comm

/-- `discrete_map::find`'s scan reports `end()` exactly when no slot in the
visited list references an entry with the wanted key. -/
theorem discrete_find_go_eq_none_iff (m : MapState) (k : Nat) (l : List Nat) :
    DiscreteMap.find_go m k l = none ↔
      ∀ i ∈ l, ∀ d, m.index_probe.getD i none = some d → ¬ m.keys[d]? = some k := by
  induction l with
  | nil => simp [DiscreteMap.find_go]
  | cons i rest ih =>
    rw [DiscreteMap.find_go]
    cases hslot : m.index_probe.getD i none with
    | none =>
      constructor
      · intro h j hj d hd
        rcases List.mem_cons.1 hj with rfl | hj
        · rw [hslot] at hd
          exact Option.noConfusion hd
        · exact (ih.1 h) j hj d hd
      · intro h
        exact ih.2 fun j hj d hd => h j (List.mem_cons_of_mem i hj) d hd
    | some d =>
      change (if m.keys[d]? = some k then some i else DiscreteMap.find_go m k rest) = none ↔ _
      by_cases hk : m.keys[d]? = some k
      · rw [if_pos hk]
        constructor
        · intro h
          exact Option.noConfusion h
        · intro h
          exact absurd hk (h i (List.mem_cons_self i rest) d hslot)
      · rw [if_neg hk]
        constructor
        · intro h j hj d' hd'
          rcases List.mem_cons.1 hj with rfl | hj
          · rw [hslot] at hd'
            rw [Option.some_inj.1 hd'] at hk
            exact hk
          · exact (ih.1 h) j hj d' hd'
        · intro h
          exact ih.2 fun j hj d' hd' => h j (List.mem_cons_of_mem i hj) d' hd'

/-- `partial_map::erase`'s scan never mutates anything when the key is not in
the dense key vector: every occupied slot it inspects fails the key
comparison, and the first empty slot (or the end of the cycle) stops it. -/
theorem partial_erase_go_of_not_mem (k : Nat) :
    ∀ (l : List Nat) (m : MapState), k ∉ m.keys →
      PartialMap.erase_go k l m = (false, m) := by
  intro l
  induction l with
  | nil => intro m _; rfl
  | cons i rest ih =>
    intro m h
    rw [PartialMap.erase_go]
    cases hslot : m.index_probe.getD i none with
    | none => rfl
    | some d =>
      have hk : ¬ m.keys[d]? = some k := by
        intro hEq
        obtain ⟨hlt, hg⟩ := List.getElem?_eq_some.1 hEq
        exact h (hg ▸ List.getElem_mem hlt)
      simp only [if_neg hk]
      exact ih m h

/-- `partial_map::insert` and `partial_map::find` stop at the same slot: when
a scan of the slot list finds the key (with some value `v1`), inserting along
the same list overwrites exactly the dense value cell the find read, returns
`true`, and a subsequent find along the same list yields the new value. -/
theorem partial_insert_go_of_find_go (hash : Nat → Nat) (k v2 : Nat) :
    ∀ (l : List Nat) (m : MapState) (v1 : Nat),
      PartialMap.find_go m k l = some v1 →
      ∃ d, PartialMap.insert_go hash k v2 l m =
            (true, { m with values := m.values.set d v2 }) ∧
          PartialMap.find_go { m with values := m.values.set d v2 } k l = some v2 := by
  intro l
  induction l with
  | nil => intro m v1 h; exact absurd h (by simp [PartialMap.find_go])
  | cons i rest ih =>
    intro m v1 h
    rw [PartialMap.find_go] at h
    cases hslot : m.index_probe.getD i none with
    | none =>
      rw [hslot] at h
      exact absurd h (by simp)
    | some d =>
      simp only [hslot] at h
      by_cases hk : m.keys[d]? = some k
      · rw [if_pos hk] at h
        have hd : d < m.values.length := (List.getElem?_eq_some.1 h).1
        refine ⟨d, ?_, ?_⟩
        · rw [PartialMap.insert_go]
          simp only [hslot]
          rw [if_pos hk]
        · rw [PartialMap.find_go]
          have hslot' : ({ m with values := m.values.set d v2 } : MapState).index_probe.getD i none = some d := hslot
          simp only [hslot']
          rw [if_pos hk]
          exact List.getElem?_set_eq_of_lt v2 hd
      · rw [if_neg hk] at h
        obtain ⟨d', hins, hfind⟩ := ih m v1 h
        refine ⟨d', ?_, ?_⟩
        · rw [PartialMap.insert_go]
          simp only [hslot]
          rw [if_neg hk]
          exact hins
        · rw [PartialMap.find_go]
          have hslot' : ({ m with values := m.values.set d' v2 } : MapState).index_probe.getD i none = some d := hslot
          simp only [hslot']
          rw [if_neg hk]
          exact hfind

/-- The growth test of `partial_map::insert` fires exactly when the dense
size has reached the capacity: with `0 < capacity`,
`(float)(size/capacity) > 0.8f` iff `capacity ≤ size`, because the integer
quotient is `0` below that point and at least `1` from it on. -/
theorem partial_grow_check_true_iff (s c : Nat) (hc : 0 < c) :
    PartialMap.grow_check s c = true ↔ c ≤ s := by
  rw [PartialMap.grow_check, decide_eq_true_iff]
  constructor
  · intro h
    by_contra hlt
    push_neg at hlt
    rw [Nat.div_eq_of_lt hlt, Nat.mul_zero] at h
    exact absurd h (by simp [threshold_num])
  · intro h
    have h1 : 1 ≤ s / c := (Nat.one_le_div_iff hc).2 h
    have h2 : threshold_den * 1 ≤ threshold_den * (s / c) := Nat.mul_le_mul_left _ h1
    rw [Nat.mul_one] at h2
    calc threshold_num < threshold_den := by norm_num [threshold_num, threshold_den]
      _ ≤ threshold_den * (s / c) := h2

/-- While the dense storage would still be strictly smaller than the capacity
after appending one entry, `partial_map::insert` never resizes: the slot table
keeps its length on every control path. -/
theorem partial_insert_go_capacity_of_room (hash : Nat → Nat) (k v : Nat) :
    ∀ (l : List Nat) (m : MapState), m.keys.length + 1 < m.index_probe.length →
      ((PartialMap.insert_go hash k v l m).2).index_probe.length =
        m.index_probe.length := by
  intro l
  induction l with
  | nil => intro m _; rfl
  | cons i rest ih =>
    intro m hroom
    rw [PartialMap.insert_go]
    cases hslot : m.index_probe.getD i none with
    | some d =>
      simp only [hslot]
      by_cases hk : m.keys[d]? = some k
      · rw [if_pos hk]
      · rw [if_neg hk]
        exact ih m hroom
    | none =>
      simp only [hslot]
      have hlen : (m.index_probe.set i (some m.keys.length)).length =
          m.index_probe.length := List.length_set ..
      have hkeys : (m.keys ++ [k]).length = m.keys.length + 1 := by
        simp
      have hdiv : (m.keys ++ [k]).length / (m.index_probe.set i (some m.keys.length)).length = 0 :=
        Nat.div_eq_of_lt (by rw [hkeys, hlen]; exact hroom)
      have hgrow : PartialMap.grow_check (m.keys ++ [k]).length
          (m.index_probe.set i (some m.keys.length)).length = false := by
        rw [PartialMap.grow_check, hdiv, Nat.mul_zero]
        simp [threshold_num]
      simp only [hgrow, Bool.false_eq_true, if_false]
      exact hlen

/-! ### Claim theorems -/

/-- C1 (code bug): the claim — every inserted, not-yet-erased key stays
findable because erase repairs probe-chain reachability — is what the code
should do, but `erase` only clears the matched slot (`current_kv_index.reset()`)
with no backward-shift repair.  Concretely: keys 0 and 8 both hash to bucket 0
of the capacity-8 table; after `insert(0,10); insert(8,20); erase(0)` the hole
at slot 0 hides key 8, whose entry is still in the dense storage, and `find(8)`
reports it absent. -/
theorem C1_erase_strands_live_entry :
    m_08.keys = [0, 8] ∧
    PartialMap.find idhash 8 m_08 = some 20 ∧
    PartialMap.erase idhash 0 m_08 =
      (true,
        { index_probe := [none, some 1, none, none, none, none, none, none],
          keys := [8], values := [20] }) ∧
    PartialMap.find idhash 8 (PartialMap.erase idhash 0 m_08).2 = none := by
  decide

/-- C2 (code bug): the claim — erasing dense position `d` renumbers every
slot that references a dense position above `d` — is the behaviour the spec
demands, but the code erases from both vectors and clears only the matched
slot.  After `insert(0,10); insert(1,20); erase(0)` the surviving key 1 sits
at dense position 0, yet its slot still stores the stale index 1 (which now
points past the end of the shrunk vectors), so `find(1)` fails.  (The C++
comparison against `_keys[1]` is an out-of-bounds read; the model renders it
as a mismatch.) -/
theorem C2_erase_leaves_stale_dense_index :
    m_01.keys = [0, 1] ∧
    (PartialMap.erase idhash 0 m_01).2.keys = [1] ∧
    (PartialMap.erase idhash 0 m_01).2.index_probe.getD 1 none = some 1 ∧
    ¬ ((PartialMap.erase idhash 0 m_01).2.index_probe.getD 1 none = some 0) ∧
    (PartialMap.erase idhash 0 m_01).2.keys[1]? = none ∧
    PartialMap.find idhash 1 (PartialMap.erase idhash 0 m_01).2 = none := by
  decide

/-- C3 (counterexample): the claim says `insert` on a present key returns
`inserted=false` and leaves the stored value unchanged.  In the code the
duplicate branch overwrites (`_values[idx] = value`) and returns `true`:
after `insert(0,1); insert(0,2)`, `find(0)` yields 2, not 1. -/
theorem C3_counterexample_insert_overwrites :
    PartialMap.find idhash 0 c3_m = some 1 ∧
    (PartialMap.insert idhash 0 2 c3_m).1 = true ∧
    PartialMap.find idhash 0 (PartialMap.insert idhash 0 2 c3_m).2 = some 2 ∧
    ¬ ((PartialMap.insert idhash 0 2 c3_m).1 = false ∧
        PartialMap.find idhash 0 (PartialMap.insert idhash 0 2 c3_m).2 = some 1) := by
  decide

/-- C3 (amended): for every key already findable in a `partial_map`, a
subsequent `insert(k, v2)` returns `true` and OVERWRITES the stored value in
place — the slot table and the key vector are untouched and `find(k)`
afterwards yields `v2` (the duplicate branch of `insert` is itself the
assign/overwrite path). -/
theorem C3_insert_on_present_key_overwrites (hash : Nat → Nat) (k v2 v1 : Nat)
    (m : MapState) (h : PartialMap.find hash k m = some v1) :
    ∃ m', PartialMap.insert hash k v2 m = (true, m') ∧
      m'.index_probe = m.index_probe ∧ m'.keys = m.keys ∧
      PartialMap.find hash k m' = some v2 := by
  obtain ⟨d, hins, hfind⟩ := partial_insert_go_of_find_go hash k v2
    (probe_order (get_index (hash k) m.index_probe.length) m.index_probe.length) m v1 h
  exact ⟨_, hins, rfl, rfl, hfind⟩

/-- Witness for the amended C3 theorem at a concrete input. -/
theorem C3_witness :
    PartialMap.find idhash 0 c3_m = some 1 ∧
    (∃ m', PartialMap.insert idhash 0 2 c3_m = (true, m') ∧
      m'.index_probe = c3_m.index_probe ∧ m'.keys = c3_m.keys ∧
      PartialMap.find idhash 0 m' = some 2) :=
  ⟨by decide, C3_insert_on_present_key_overwrites idhash 0 2 1 c3_m (by decide)⟩

/-- C4 (code bug): the claim — after every insert `size()/capacity()` stays
strictly below the threshold, growth happening before the entry that would
reach it is committed — fails on `discrete_map::insert`, which compares the
PRE-insert load factor with the threshold.  Seven inserts into the capacity-8
table (buckets 0..6) leave `7/8 = 0.875 ≥ 0.8` with no resize.  The eighth
insert then does grow — and loses the committed key: the dense-index store
goes through a reference into the slot table that `_grow_next()` has just
replaced, so key 7 is appended to the dense vectors but never referenced by
the new table, and `find(7)` fails. -/
theorem C4_load_factor_bound_violated_and_grown_key_lost :
    c4_m7.keys.length = 7 ∧ c4_m7.index_probe.length = 8 ∧
    ¬ (DiscreteMap.load_factor c4_m7.keys.length c4_m7.index_probe.length <
        threshold_q) ∧
    (DiscreteMap.insert idhash 7 107 c4_m7).1 = true ∧
    (DiscreteMap.insert idhash 7 107 c4_m7).2.keys = [0, 1, 2, 3, 4, 5, 6, 7] ∧
    (DiscreteMap.insert idhash 7 107 c4_m7).2.index_probe.length = 16 ∧
    DiscreteMap.find idhash 7 (DiscreteMap.insert idhash 7 107 c4_m7).2 = none := by
  have h7 : c4_m7.keys.length = 7 := by decide
  have h8 : c4_m7.index_probe.length = 8 := by decide
  refine ⟨h7, h8, ?_, by decide, by decide, by decide, by decide⟩
  rw [h7, h8]
  norm_num [DiscreteMap.load_factor, threshold_q]

/-- C5 (code bug): the claim — rehash probes each live entry to the first
empty slot of the new table, so no two entries overwrite one another and
every key stays findable — is what `partial_map::_resize` does, but
`discrete_map::rehash` (like `HashPolicy::rehash`) writes each stored dense
index DIRECTLY at its new bucket.  Keys 0 and 16 collide under the new
capacity 16: entry 1 (key 16) overwrites entry 0 (key 0) at slot 0, no slot
references dense position 0 any more, and even the full-cycle `find` reports
key 0 absent.  The probing `_resize` on the same state keeps both keys. -/
theorem C5_rehash_overwrites_colliding_slot :
    c5_m.index_probe.getD 0 none = some 0 ∧
    c5_m.index_probe.getD 1 none = some 1 ∧
    (DiscreteMap.rehash idhash 16 c5_m).keys = [0, 16] ∧
    (DiscreteMap.rehash idhash 16 c5_m).index_probe.getD 0 none = some 1 ∧
    ¬ some 0 ∈ (DiscreteMap.rehash idhash 16 c5_m).index_probe ∧
    DiscreteMap.find idhash 0 (DiscreteMap.rehash idhash 16 c5_m) = none ∧
    PartialMap.find idhash 0 (PartialMap.resize idhash c5_m) = some 10 ∧
    PartialMap.find idhash 16 (PartialMap.resize idhash c5_m) = some 20 := by
  decide

/-- C6 (counterexample): the claim says `find` returns "absent" as soon as it
reaches the first empty slot.  `discrete_map::find`'s callback merely records
`end()` at an empty slot and keeps scanning: with key 8 hashing to bucket 0,
slot 0 empty and key 8's entry referenced by slot 1, the code returns FOUND
(iterator offset 1) instead of stopping empty-handed at slot 0.
(`partial_map::find`, by contrast, stops at the empty slot.) -/
theorem C6_counterexample_find_ignores_empty_slot :
    get_index (idhash 8) c6_m.index_probe.length = 0 ∧
    c6_m.index_probe.getD 0 none = none ∧
    DiscreteMap.find idhash 8 c6_m = some 1 ∧
    ¬ (DiscreteMap.find idhash 8 c6_m = none) ∧
    PartialMap.find idhash 8 c6_m = none := by
  decide

/-- C6 (amended): `discrete_map::find` visits the candidate slots in the
linear cyclic order `bucket, bucket+1, …, capacity-1, 0, …, bucket-1` — a
full cyclic permutation of `[0, capacity)` — and returns "found" at the first
slot whose referenced entry matches the key; but it does NOT stop at the
first empty slot: it reports "absent" only after scanning the entire cycle,
i.e. exactly when no slot of the table references an entry with that key. -/
theorem C6_find_full_cycle_first_match (hash : Nat → Nat) (k : Nat)
    (m : MapState) (hcap : 0 < m.index_probe.length) :
    (probe_order (get_index (hash k) m.index_probe.length)
        m.index_probe.length).Perm (List.range m.index_probe.length) ∧
    (DiscreteMap.find hash k m = none ↔
      ∀ i < m.index_probe.length, ∀ d, m.index_probe.getD i none = some d →
        ¬ m.keys[d]? = some k) := by
  have hb : get_index (hash k) m.index_probe.length ≤ m.index_probe.length :=
    Nat.le_of_lt (get_index_lt _ _ hcap)
  have hperm := probe_order_perm_range _ _ hb
  refine ⟨hperm, ?_⟩
  rw [DiscreteMap.find, discrete_find_go_eq_none_iff]
  constructor
  · intro h i hi d hd
    exact h i (hperm.mem_iff.2 (List.mem_range.2 hi)) d hd
  · intro h i hi d hd
    exact h i (List.mem_range.1 (hperm.mem_iff.1 hi)) d hd

/-- Witness for the amended C6 theorem at a concrete input. -/
theorem C6_witness :
    0 < c6_m.index_probe.length ∧
    ((probe_order (get_index (idhash 8) c6_m.index_probe.length)
        c6_m.index_probe.length).Perm (List.range c6_m.index_probe.length) ∧
    (DiscreteMap.find idhash 8 c6_m = none ↔
      ∀ i < c6_m.index_probe.length, ∀ d,
        c6_m.index_probe.getD i none = some d → ¬ c6_m.keys[d]? = some 8)) :=
  ⟨by decide, C6_find_full_cycle_first_match idhash 8 c6_m (by decide)⟩

/-- C7 (confirmed): erasing a key that is not in the map returns `false` and
leaves the state — slot table, key vector, value vector, hence size and every
findable key — exactly as it was. -/
theorem C7_erase_absent_key_is_noop (hash : Nat → Nat) (k : Nat) (m : MapState)
    (h : k ∉ m.keys) : PartialMap.erase hash k m = (false, m) :=
  partial_erase_go_of_not_mem k
    (probe_order (get_index (hash k) m.index_probe.length) m.index_probe.length) m h

/-- Witness for the C7 theorem at a concrete input. -/
theorem C7_witness :
    (3 : Nat) ∉ m_08.keys ∧ PartialMap.erase idhash 3 m_08 = (false, m_08) :=
  ⟨by decide, C7_erase_absent_key_is_noop idhash 3 m_08 (by decide)⟩

/-- C8 (code bug): the absent branch of `at` is as claimed (the distinct
`result_out_of_range` error code, no insertion, no default value), but the
present branch returns the WRONG value: `find` records `begin() + i` with `i`
the probe-slot index, conflating it with the dense position.  After
`insert(1,100); insert(0,200)`, key 1 matches at probe slot 1 while living at
dense position 0, so `at(1)` yields 200 — key 0's value — instead of 100. -/
theorem C8_at_returns_value_at_probe_offset :
    c8_m.keys = [1, 0] ∧ c8_m.values = [100, 200] ∧
    DiscreteMap.find idhash 1 c8_m = some 1 ∧
    DiscreteMap.at' idhash 1 c8_m = DiscreteMap.AtResult.ok 200 ∧
    ¬ (DiscreteMap.at' idhash 1 c8_m = DiscreteMap.AtResult.ok 100) ∧
    DiscreteMap.at' idhash 3 c8_m = DiscreteMap.AtResult.result_out_of_range := by
  decide

/-- C9 (counterexample): the claim says `max_capacity()` is the largest
representable power of two for the slot-index type `size_t` (64-bit), i.e.
`2^63`.  The loop runs over a 32-bit `unsigned int`, so it stops at `2^31`. -/
theorem C9_counterexample_max_capacity_not_size_t :
    max_capacity ≠ 2 ^ (size_t_bits - 1) := by
  decide

/-- C9 (amended): `max_capacity()` returns the largest power of two
representable in `unsigned int` — `2^31` for the 32-bit `unsigned int` the
loop actually uses — regardless of the width of the `size_t` slot-index
type. -/
theorem C9_max_capacity_is_uint_width :
    max_capacity = 2 ^ (uint_bits - 1) := by
  decide

/-- C10 (confirmed): `partial_map::_load_factor` divides the two `size_t`
counts with integer division before any float conversion, so it returns 0
whenever `0 < size < capacity`; consequently `insert`'s growth test
(`load factor > threshold`) is false there, fires exactly when the dense size
has reached the capacity, and `insert` leaves the capacity unchanged whenever
the table still has room beyond the new entry. -/
theorem C10_integer_division_load_factor (s c : Nat) (h1 : 0 < s) (h2 : s < c)
    (hash : Nat → Nat) (k v : Nat) (m : MapState)
    (hm : m.keys.length + 1 < m.index_probe.length) :
    PartialMap.load_factor s c = 0 ∧
    ¬ (threshold_q < PartialMap.load_factor s c) ∧
    PartialMap.grow_check s c = false ∧
    (∀ s' c' : Nat, 0 < c' → (PartialMap.grow_check s' c' = true ↔ c' ≤ s')) ∧
    ((PartialMap.insert hash k v m).2).index_probe.length =
      m.index_probe.length := by
  have hlf : PartialMap.load_factor s c = 0 := by
    rw [PartialMap.load_factor, Nat.div_eq_of_lt h2]
    norm_num
  refine ⟨hlf, ?_, ?_, ?_, ?_⟩
  · rw [hlf]
    norm_num [threshold_q]
  · rw [PartialMap.grow_check, Nat.div_eq_of_lt h2, Nat.mul_zero]
    decide
  · exact fun s' c' hc' => partial_grow_check_true_iff s' c' hc'
  · exact partial_insert_go_capacity_of_room hash k v
      (probe_order (get_index (hash k) m.index_probe.length) m.index_probe.length) m hm

/-- Witness for the C10 theorem at a concrete input. -/
theorem C10_witness :
    0 < 3 ∧ 3 < 8 ∧ c3_m.keys.length + 1 < c3_m.index_probe.length ∧
    (PartialMap.load_factor 3 8 = 0 ∧
      ¬ (threshold_q < PartialMap.load_factor 3 8) ∧
      PartialMap.grow_check 3 8 = false ∧
      (∀ s' c' : Nat, 0 < c' → (PartialMap.grow_check s' c' = true ↔ c' ≤ s')) ∧
      ((PartialMap.insert idhash 5 50 c3_m).2).index_probe.length =
        c3_m.index_probe.length) :=
  ⟨by decide, by decide, by decide,
    C10_integer_division_load_factor 3 8 (by decide) (by decide) idhash 5 50 c3_m
      (by decide)⟩
